import Mathlib

/-!
Verification of the chunking engine (`src/chunker.js`, class `FileChunker`)
and the finding-aggregation pipeline (`src/review.js`, class `CodeReviewer`)
of the claude-web-code-review repository.

JavaScript strings are modelled as Lean `String`.  The JS runtime helpers
used by the two classes (`split('\n')`, `join('\n')`, `trim()`,
`startsWith`) are embedded as structural functions over the underlying
character list, so that every definition evaluates inside the kernel.
Regular-expression tests (used only to decide whether a rule fires on a
line, and to count complexity indicators) are modelled as abstract Boolean
/ numeric parameters: no claim below depends on which lines a regex
matches, only on the bookkeeping around the matches.
-/

/-- JS `content.split('\n')` helper: the accumulator holds the characters
of the current line in reverse. -/
def splitLinesAux : List Char → List Char → List String
  | acc, [] => [String.mk acc.reverse]
  | acc, c :: cs =>
    if c = '\n' then String.mk acc.reverse :: splitLinesAux [] cs
    else splitLinesAux (c :: acc) cs

/-- JS `content.split('\n')`: split at every newline.  The empty string
yields `[""]`, exactly as in JavaScript. -/
def splitLines (s : String) : List String := splitLinesAux [] s.data

/-- JS `array.join('\n')`. -/
def joinLines : List String → String
  | [] => ""
  | [l] => l
  | l :: ls => l ++ "\n" ++ joinLines ls

/-- JS `line.trim()`: strip whitespace from both ends. -/
def trimStr (s : String) : String :=
  String.mk (((s.data.dropWhile Char.isWhitespace).reverse.dropWhile
    Char.isWhitespace).reverse)

/-- JS `line.startsWith(p)`. -/
def startsWithStr (s p : String) : Bool := p.data.isPrefixOf s.data

namespace FileChunker

/-- `estimateTokens(text)` from chunker.js:
`Math.ceil(text.length / 4)`, i.e. `(length + 3) / 4` in natural-number
arithmetic. -/
def estimateTokens (text : String) : Nat := (text.length + 3) / 4

/-- Sum of the per-line estimates of a line list (the accumulation
`getOverlapLines` performs). -/
def linesTokens (ls : List String) : Nat := (ls.map estimateTokens).sum

/-- One chunk record as built by `createChunks`.  The JS object stores
`content: currentChunk.join('\n')`; we keep the underlying line array in
`lines` and recover the joined string via `Chunk.content`.  `startLine`
and `endLine` are kept as integers because the JS arithmetic
(`i - currentChunk.length + 1`) is over signed numbers. -/
structure Chunk where
  number : Nat
  lines : List String
  startLine : Int
  endLine : Int
  tokens : Nat
  overlap : List String
deriving DecidableEq, Repr

/-- JS `chunk.content = currentChunk.join('\n')`. -/
def Chunk.content (c : Chunk) : String := joinLines c.lines

/-- The backward walk of `getOverlapLines`, expressed over the reversed
line array: a line is taken whenever the running token total is still
strictly below the overlap budget (`tokens < overlapTokens`), and its
estimate is then added to the total. -/
def overlapAux (budget : Nat) : List String → Nat → List String
  | [], _ => []
  | l :: rest, tokens =>
    if tokens < budget then l :: overlapAux budget rest (tokens + estimateTokens l)
    else []

/-- `getOverlapLines(chunk)` from chunker.js: walk from the last line of
the just-closed chunk backwards, `unshift`-ing lines while the
accumulated estimate is `< this.overlap`.  The result is a suffix of the
chunk, in original order. -/
def getOverlapLines (budget : Nat) (chunk : List String) : List String :=
  (overlapAux budget chunk.reverse 0).reverse

/-- The mutable state of the `createChunks` loop: the chunks flushed so
far, the lines of the chunk in progress, its running token estimate, and
the next sequence number. -/
structure ChunkState where
  chunks : List Chunk
  currentChunk : List String
  currentTokens : Nat
  chunkNumber : Nat
deriving Repr

/-- Closing a chunk inside the loop of `createChunks` (the `if` body):
compute the overlap of the current chunk, push the chunk record
(`startLine: i - currentChunk.length + 1`, `endLine: i`, the running
token count, and the overlap), and re-seed the state with the overlap
lines, whose running estimate is recomputed from their joined text. -/
def closeChunk (budget : Nat) (i : Nat) (st : ChunkState) : ChunkState :=
  let overlapLines := getOverlapLines budget st.currentChunk
  let closed : Chunk :=
    { number := st.chunkNumber,
      lines := st.currentChunk,
      startLine := (i : Int) - st.currentChunk.length + 1,
      endLine := (i : Int),
      tokens := st.currentTokens,
      overlap := overlapLines }
  { chunks := st.chunks ++ [closed],
    currentChunk := overlapLines,
    currentTokens := estimateTokens (joinLines overlapLines),
    chunkNumber := st.chunkNumber + 1 }

/-- `currentChunk.push(line); currentTokens += lineTokens`. -/
def pushLine (line : String) (st : ChunkState) : ChunkState :=
  { st with currentChunk := st.currentChunk ++ [line],
            currentTokens := st.currentTokens + estimateTokens line }

/-- One iteration of the `for` loop of `createChunks` at index `i`:
close the current chunk when appending `line` would exceed `maxTokens`
and the chunk is nonempty, then append the line. -/
def stepLine (maxTokens budget : Nat) (i : Nat) (line : String)
    (st : ChunkState) : ChunkState :=
  if st.currentTokens + estimateTokens line > maxTokens ∧ st.currentChunk ≠ [] then
    pushLine line (closeChunk budget i st)
  else
    pushLine line st

/-- The `for (let i = 0; i < lines.length; i++)` loop of `createChunks`. -/
def chunkLoop (maxTokens budget : Nat) : List String → Nat → ChunkState → ChunkState
  | [], _, st => st
  | line :: rest, i, st =>
    chunkLoop maxTokens budget rest (i + 1) (stepLine maxTokens budget i line st)

/-- The trailing `if (currentChunk.length > 0)` of `createChunks`: flush
the final partial chunk (`startLine: lines.length - currentChunk.length + 1`,
`endLine: lines.length`, empty overlap). -/
def finalize (totalLines : Nat) (st : ChunkState) : ChunkState :=
  if st.currentChunk ≠ [] then
    let finalChunk : Chunk :=
      { number := st.chunkNumber,
        lines := st.currentChunk,
        startLine := (totalLines : Int) - st.currentChunk.length + 1,
        endLine := (totalLines : Int),
        tokens := st.currentTokens,
        overlap := [] }
    { st with chunks := st.chunks ++ [finalChunk] }
  else st

/-- `createChunks` on an already-split line array. -/
def createChunksLines (maxTokens budget : Nat) (lines : List String) : List Chunk :=
  (finalize lines.length
    (chunkLoop maxTokens budget lines 0
      { chunks := [], currentChunk := [], currentTokens := 0, chunkNumber := 1 })).chunks

/-- `createChunks(content, filePath)` from chunker.js.  (The `filePath`
argument only feeds `findBreakpoints`, whose result `breakpoints` is
computed and then never used by the loop, so it is omitted.) -/
def createChunks (maxTokens budget : Nat) (content : String) : List Chunk :=
  createChunksLines maxTokens budget (splitLines content)

/-- The configuration stored by the `FileChunker` constructor. -/
structure Config where
  maxTokens : Nat
  overlap : Nat
deriving DecidableEq, Repr

/-- The `FileChunker` constructor:
`this.maxTokens = options.maxTokens || 4000; this.overlap = options.overlap || 200`.
JS `||` replaces both an absent option and the number `0` by the default;
any other value, including `overlap >= maxTokens`, is stored unchanged —
the constructor performs no validation. -/
def makeConfig (maxTokensOpt overlapOpt : Option Nat) : Config :=
  { maxTokens :=
      match maxTokensOpt with
      | none => 4000
      | some n => if n = 0 then 4000 else n,
    overlap :=
      match overlapOpt with
      | none => 200
      | some n => if n = 0 then 200 else n }

/-- The overlap slice a chunk inherits: the `overlap` field of its
predecessor (`prev` is the inherited slice of the first chunk of the
list, `[]` at the top level). -/
def lastOverlapFrom (prev : List String) : List Chunk → List String
  | [] => prev
  | c :: rest => lastOverlapFrom c.overlap rest

/-- The overlap handed to the next chunk by the last chunk of the list
(`[]` when no chunk exists). -/
def lastOverlap (cs : List Chunk) : List String := lastOverlapFrom [] cs

/-- The *new* (non-overlap) lines of each chunk: every chunk's line array
minus the overlap prefix it inherited from its predecessor (`prev` for
the first chunk of the list). -/
def newLinesFrom (prev : List String) : List Chunk → List (List String)
  | [] => []
  | c :: rest => c.lines.drop prev.length :: newLinesFrom c.overlap rest

/-- Per-chunk budget bookkeeping, threaded with the inherited overlap:
each chunk either respects `maxTokens`, or consists of its inherited
overlap seed plus exactly one new line. -/
def BudgetOk (maxTokens : Nat) : List String → List Chunk → Prop
  | _, [] => True
  | prev, c :: rest =>
    (c.tokens ≤ maxTokens ∨ c.lines.length = prev.length + 1) ∧
      BudgetOk maxTokens c.overlap rest

/-- Loop invariant of `createChunks`, over the lines consumed so far: the
chunk in progress starts with the overlap handed over by the last flushed
chunk; the flushed chunks' new lines followed by the in-progress rest
reconstruct the consumed lines; the running estimate respects the budget
unless the chunk in progress is still its overlap seed plus one line;
flushed chunks satisfy the budget bookkeeping and the overlap tail bound;
sequence numbers are `1, 2, …` with the counter one past the end. -/
def MasterInv (mt ov : Nat) (consumed : List String) (st : ChunkState) : Prop :=
  (∃ rest, st.currentChunk = lastOverlap st.chunks ++ rest ∧
    (newLinesFrom [] st.chunks).flatten ++ rest = consumed) ∧
  (st.currentTokens ≤ mt ∨ st.currentChunk.length = (lastOverlap st.chunks).length + 1) ∧
  BudgetOk mt [] st.chunks ∧
  (∀ c ∈ st.chunks, linesTokens c.overlap.tail < ov) ∧
  st.chunks.map Chunk.number = List.range' 1 st.chunks.length ∧
  st.chunkNumber = st.chunks.length + 1

end FileChunker

namespace CodeReviewer

/-- Severity levels of findings (review.js pattern tables). -/
inductive Severity where
  | critical
  | high
  | medium
  | low
  | info
deriving DecidableEq, Repr

/-- Severity rank for the ordering claim: `critical > high > medium > low
> info` (the order review.js itself uses in its report section list). -/
def Severity.rank : Severity → Nat
  | .critical => 4
  | .high => 3
  | .medium => 2
  | .low => 1
  | .info => 0

/-- One finding as produced by `analyzeCode` and aggregated by
`combineReviews`.  `chunk` is absent (`none`) until `combineReviews`
tags the finding with its 1-based chunk index. -/
structure Finding where
  line : Nat
  severity : Severity
  message : String
  code : String
  chunk : Option Nat
deriving DecidableEq, Repr

/-- One analysis rule of `analyzeCode`: a regex (`regex.test(line)` is
modelled as an abstract Boolean predicate on the line), a severity and a
message. -/
structure Pattern where
  test : String → Bool
  severity : Severity
  message : String

/-- The `lines.forEach((line, index) => activePatterns.forEach(...))`
body of `analyzeCode`: for each line, every matching rule produces a
finding at chunk-local line `index + 1` with the trimmed line text. -/
def analyzeLines (patterns : List Pattern) : Nat → List String → List Finding
  | _, [] => []
  | idx, line :: rest =>
    (patterns.filter (fun p => p.test line)).map
      (fun p => { line := idx + 1, severity := p.severity,
                  message := p.message, code := trimStr line, chunk := none })
      ++ analyzeLines patterns (idx + 1) rest

/-- `analyzeCode(content, template)` from review.js, parameterised by the
active rule list (in the source, one of the fixed regex tables). -/
def analyzeCode (patterns : List Pattern) (content : String) : List Finding :=
  analyzeLines patterns 0 (splitLines content)

/-- `estimateTokens(text)` from review.js: `Math.ceil(text.length / 4)`. -/
def estimateTokens (text : String) : Nat := (text.length + 3) / 4

/-- The metrics record of `calculateMetrics`. -/
structure Metrics where
  totalLines : Nat
  codeLines : Nat
  commentLines : Nat
  complexity : Nat
  tokens : Nat
deriving DecidableEq, Repr

/-- `calculateMetrics(content)` from review.js.  `estimateComplexity`
counts regex matches over the whole content and is modelled as an
abstract numeric parameter. -/
def calculateMetrics (estimateComplexity : String → Nat) (content : String) : Metrics :=
  let lines := splitLines content
  { totalLines := lines.length,
    codeLines := (lines.filter (fun l => (trimStr l).length > 0)).length,
    commentLines := (lines.filter
      (fun l => startsWithStr (trimStr l) "//" || startsWithStr (trimStr l) "#")).length,
    complexity := estimateComplexity content,
    tokens := estimateTokens content }

/-- `generateSummary(findings)` from review.js: count findings per
severity and assemble the fixed sentence. -/
def generateSummary (findings : List Finding) : String :=
  let c := (findings.filter (fun f => f.severity = Severity.critical)).length
  let h := (findings.filter (fun f => f.severity = Severity.high)).length
  let m := (findings.filter (fun f => f.severity = Severity.medium)).length
  let parts : List String :=
    (if c > 0 then [toString c ++ " critical issues"] else []) ++
    (if h > 0 then [toString h ++ " high priority issues"] else []) ++
    (if m > 0 then [toString m ++ " medium priority issues"] else [])
  if parts.length > 0 then
    "Found " ++ String.intercalate ", " parts ++ ". Immediate attention required."
  else
    "No significant issues found. Code meets quality standards."

/-- A per-chunk review as consumed by `combineReviews` (only the fields
`combineReviews` reads — `findings` and `metrics` — are modelled). -/
structure Review where
  findings : List Finding
  metrics : Metrics
deriving Repr

/-- The `reviews.forEach((review, index) => review.findings.forEach(...))`
of `combineReviews`: each finding is copied unchanged (spread) with
`chunk: index + 1` added. -/
def tagFindings : Nat → List Review → List Finding
  | _, [] => []
  | idx, r :: rest =>
    r.findings.map (fun f => { f with chunk := some (idx + 1) })
      ++ tagFindings (idx + 1) rest

/-- Field-wise addition used by the metrics accumulation of
`combineReviews` (`combined.metrics[key] += review.metrics[key]`). -/
def addMetrics (a b : Metrics) : Metrics :=
  { totalLines := a.totalLines + b.totalLines,
    codeLines := a.codeLines + b.codeLines,
    commentLines := a.commentLines + b.commentLines,
    complexity := a.complexity + b.complexity,
    tokens := a.tokens + b.tokens }

/-- The combined (file-level) review record built by `combineReviews`. -/
structure CombinedReview where
  totalChunks : Nat
  findings : List Finding
  metrics : Metrics
  summary : String
deriving Repr

/-- `combineReviews(reviews, filePath)` from review.js: concatenate every
chunk's findings (tagging each with its chunk index), accumulate the five
metric fields starting from zero, and generate the summary from the
merged finding list. -/
def combineReviews (reviews : List Review) : CombinedReview :=
  let findings := tagFindings 0 reviews
  { totalChunks := reviews.length,
    findings := findings,
    metrics := reviews.foldl (fun acc r => addMetrics acc r.metrics)
      { totalLines := 0, codeLines := 0, commentLines := 0, complexity := 0, tokens := 0 },
    summary := generateSummary findings }

/-- Number of findings carrying a given (line, message) key — the
deduplication identity key of the specification. -/
def countFindings (fs : List Finding) (line : Nat) (msg : String) : Nat :=
  (fs.filter (fun f => f.line == line && f.message == msg)).length

end CodeReviewer

/-- A concrete analysis rule that fires exactly on the line
`"console.log(x)"` (a concrete instance of the abstract regex test of a
`low`-severity best-practices rule). -/
def ruleA : CodeReviewer.Pattern :=
  { test := fun l => l == "console.log(x)",
    severity := CodeReviewer.Severity.low,
    message := "Remove console statements" }

/-- A concrete analysis rule that fires exactly on the line `"zzzzzzzz"`
(a concrete instance of the abstract regex test of a `critical`-severity
security rule). -/
def ruleB : CodeReviewer.Pattern :=
  { test := fun l => l == "zzzzzzzz",
    severity := CodeReviewer.Severity.critical,
    message := "Hardcoded password detected" }

/-- A concrete analysis rule that fires exactly on the line `"cccccccc"`. -/
def ruleC : CodeReviewer.Pattern :=
  { test := fun l => l == "cccccccc",
    severity := CodeReviewer.Severity.critical,
    message := "Hardcoded password detected" }

/-- A three-line example file (each line is 8 characters, i.e. 2
estimated tokens). -/
def exampleContent : String := "aaaaaaaa\nbbbbbbbb\ncccccccc"

/-- Chunking the example file with `maxTokens = 4`, `overlap = 1`
produces two chunks: lines 1–2, and lines 2–3 (line 2 duplicated as
overlap). -/
def exampleChunks : List FileChunker.Chunk :=
  FileChunker.createChunks 4 1 exampleContent

/-- The per-chunk reviews of the example file, as `reviewChunkedFile`
builds them: each chunk's content is analysed independently (with
`ruleC` as the active rule set) and measured by `calculateMetrics`. -/
def exampleReviews : List CodeReviewer.Review :=
  exampleChunks.map (fun c =>
    { findings := CodeReviewer.analyzeCode [ruleC] c.content,
      metrics := CodeReviewer.calculateMetrics (fun _ => 1) c.content })

/-- A `low` finding at line 5 with the message "Remove console
statements" — the shape `analyzeCode` produces when the console rule
fires on line 5 of a chunk. -/
def dupFinding : CodeReviewer.Finding :=
  { line := 5, severity := CodeReviewer.Severity.low,
    message := "Remove console statements", code := "console.log(x)",
    chunk := none }

/-- Metrics of a plausible 10-line chunk. -/
def dupMetrics : CodeReviewer.Metrics :=
  { totalLines := 10, codeLines := 8, commentLines := 1,
    complexity := 2, tokens := 50 }

/-- A chunk review reporting exactly the finding `dupFinding`. -/
def dupReview : CodeReviewer.Review :=
  { findings := [dupFinding], metrics := dupMetrics }

/-- A single chunk review whose analyzer output is a `low` finding on
line 1 followed by a `critical` finding on line 2 (rules `ruleA` and
`ruleB` applied to a two-line chunk). -/
def unsortedReview : CodeReviewer.Review :=
  { findings := CodeReviewer.analyzeCode [ruleA, ruleB] "console.log(x)\nzzzzzzzz",
    metrics := CodeReviewer.calculateMetrics (fun _ => 1) "console.log(x)\nzzzzzzzz" }

namespace FileChunker

lemma linesTokens_nil : linesTokens [] = 0 := rfl

lemma linesTokens_cons (a : String) (l : List String) :
    linesTokens (a :: l) = estimateTokens a + linesTokens l := by
  simp [linesTokens]

lemma linesTokens_reverse (l : List String) :
    linesTokens l.reverse = linesTokens l := by
  simp [linesTokens, List.sum_reverse]

lemma overlapAux_eq_nil (budget : Nat) (xs : List String) (t : Nat)
    (h : ¬ t < budget) : overlapAux budget xs t = [] := by
  cases xs <;> simp [overlapAux, h]

lemma overlapAux_dropLast_sum (budget : Nat) :
    ∀ (xs : List String) (t : Nat), t < budget →
      t + linesTokens (overlapAux budget xs t).dropLast < budget := by
  intro xs
  induction xs with
  | nil =>
    intro t ht
    simpa [overlapAux, linesTokens] using ht
  | cons x rest ih =>
    intro t ht
    simp only [overlapAux, if_pos ht]
    rcases h' : overlapAux budget rest (t + estimateTokens x) with _ | ⟨y, ys⟩
    · simpa [linesTokens] using ht
    · by_cases hx : t + estimateTokens x < budget
      · have hih := ih (t + estimateTokens x) hx
        rw [h'] at hih
        simp only [List.dropLast_cons₂, linesTokens_cons] at hih ⊢
        omega
      · rw [overlapAux_eq_nil budget rest _ hx] at h'
        simp at h'

lemma getOverlapLines_tail_lt (budget : Nat) (h : 0 < budget) (l : List String) :
    linesTokens (getOverlapLines budget l).tail < budget := by
  have h0 := overlapAux_dropLast_sum budget l.reverse 0 h
  rw [getOverlapLines, List.tail_reverse, linesTokens_reverse]
  omega

lemma lastOverlapFrom_append (c : Chunk) :
    ∀ (cs : List Chunk) (prev : List String),
      lastOverlapFrom prev (cs ++ [c]) = c.overlap := by
  intro cs
  induction cs with
  | nil => intro prev; rfl
  | cons d ds ih => intro prev; simpa [lastOverlapFrom] using ih d.overlap

lemma newLinesFrom_append (c : Chunk) :
    ∀ (cs : List Chunk) (prev : List String),
      newLinesFrom prev (cs ++ [c]) =
        newLinesFrom prev cs ++ [c.lines.drop (lastOverlapFrom prev cs).length] := by
  intro cs
  induction cs with
  | nil => intro prev; rfl
  | cons d ds ih =>
    intro prev
    simp [newLinesFrom, lastOverlapFrom, ih d.overlap]

lemma budgetOk_append (mt : Nat) (c : Chunk) :
    ∀ (cs : List Chunk) (prev : List String), BudgetOk mt prev cs →
      (c.tokens ≤ mt ∨ c.lines.length = (lastOverlapFrom prev cs).length + 1) →
      BudgetOk mt prev (cs ++ [c]) := by
  intro cs
  induction cs with
  | nil =>
    intro prev _ hc
    exact ⟨hc, trivial⟩
  | cons d ds ih =>
    intro prev hok hc
    exact ⟨hok.1, ih d.overlap hok.2 hc⟩

end FileChunker

namespace FileChunker

lemma master_init (mt ov : Nat) :
    MasterInv mt ov []
      { chunks := [], currentChunk := [], currentTokens := 0, chunkNumber := 1 } := by
  refine ⟨⟨[], rfl, rfl⟩, Or.inl (Nat.zero_le mt), trivial, ?_, rfl, rfl⟩
  simp

lemma master_step (mt ov : Nat) (hov : 0 < ov) (consumed : List String)
    (st : ChunkState) (i : Nat) (line : String)
    (h : MasterInv mt ov consumed st) :
    MasterInv mt ov (consumed ++ [line]) (stepLine mt ov i line st) := by
  obtain ⟨⟨rest, hcur, hrec⟩, hJ, hB, hD, hnum, hcn⟩ := h
  by_cases hc : st.currentTokens + estimateTokens line > mt ∧ st.currentChunk ≠ []
  · rw [stepLine, if_pos hc]
    set ovl := getOverlapLines ov st.currentChunk with hovl
    set closed : Chunk :=
      { number := st.chunkNumber,
        lines := st.currentChunk,
        startLine := (i : Int) - st.currentChunk.length + 1,
        endLine := (i : Int),
        tokens := st.currentTokens,
        overlap := ovl } with hclosed
    have hlast : lastOverlap (st.chunks ++ [closed]) = ovl :=
      lastOverlapFrom_append closed st.chunks []
    have hnew : newLinesFrom [] (st.chunks ++ [closed]) =
        newLinesFrom [] st.chunks ++ [closed.lines.drop (lastOverlap st.chunks).length] :=
      newLinesFrom_append closed st.chunks []
    have hdrop : closed.lines.drop (lastOverlap st.chunks).length = rest := by
      show st.currentChunk.drop (lastOverlap st.chunks).length = rest
      rw [hcur]
      exact List.drop_left _ _
    refine ⟨⟨[line], ?_, ?_⟩, ?_, ?_, ?_, ?_, ?_⟩
    · show ovl ++ [line] = lastOverlap (st.chunks ++ [closed]) ++ [line]
      rw [hlast]
    · show (newLinesFrom [] (st.chunks ++ [closed])).flatten ++ [line] = consumed ++ [line]
      rw [hnew, hdrop, List.flatten_append]
      simp only [List.flatten_cons, List.flatten_nil, List.append_nil]
      rw [← hrec]
    · right
      show (ovl ++ [line]).length = (lastOverlap (st.chunks ++ [closed])).length + 1
      rw [hlast]
      simp
    · exact budgetOk_append mt closed st.chunks [] hB hJ
    · intro c hcmem
      rcases List.mem_append.mp hcmem with hmem | hmem
      · exact hD c hmem
      · have : c = closed := by simpa using hmem
        subst this
        exact getOverlapLines_tail_lt ov hov st.currentChunk
    · show (st.chunks ++ [closed]).map Chunk.number =
        List.range' 1 (st.chunks ++ [closed]).length
      have hlen : (st.chunks ++ [closed]).length = st.chunks.length + 1 := by simp
      rw [List.map_append, hnum, hlen, List.range'_concat]
      have h19 : closed.number = 1 + 1 * st.chunks.length := by
        show st.chunkNumber = 1 + 1 * st.chunks.length
        omega
      simp [h19]
      omega
    · show st.chunkNumber + 1 = (st.chunks ++ [closed]).length + 1
      rw [List.length_append, hcn]
      simp
  · rw [stepLine, if_neg hc]
    refine ⟨⟨rest ++ [line], ?_, ?_⟩, ?_, hB, hD, hnum, hcn⟩
    · show st.currentChunk ++ [line] = lastOverlap st.chunks ++ (rest ++ [line])
      rw [hcur, List.append_assoc]
    · show (newLinesFrom [] st.chunks).flatten ++ (rest ++ [line]) = consumed ++ [line]
      rw [← List.append_assoc, hrec]
    · rcases Classical.not_and_iff_or_not_not.mp hc with hle | hnn
      · left
        show st.currentTokens + estimateTokens line ≤ mt
        omega
      · have hcn2 : st.currentChunk = [] := Classical.not_not.mp hnn
        have h2 : lastOverlap st.chunks = [] := by
          rcases List.append_eq_nil.mp (hcn2 ▸ hcur.symm) with ⟨h1, _⟩
          exact h1
        right
        show (st.currentChunk ++ [line]).length = (lastOverlap st.chunks).length + 1
        rw [hcn2, h2]
        simp

lemma master_loop (mt ov : Nat) (hov : 0 < ov) :
    ∀ (rem : List String) (i : Nat) (st : ChunkState) (consumed : List String),
      MasterInv mt ov consumed st →
      MasterInv mt ov (consumed ++ rem) (chunkLoop mt ov rem i st) := by
  intro rem
  induction rem with
  | nil =>
    intro i st consumed h
    simpa [chunkLoop] using h
  | cons l ls ih =>
    intro i st consumed h
    have h1 := master_step mt ov hov consumed st i l h
    have h2 := ih (i + 1) (stepLine mt ov i l st) (consumed ++ [l]) h1
    simpa [chunkLoop, List.append_assoc] using h2

end FileChunker

namespace FileChunker

lemma createChunksLines_spec (mt ov : Nat) (hov : 0 < ov) (lines : List String) :
    (newLinesFrom [] (createChunksLines mt ov lines)).flatten = lines ∧
    BudgetOk mt [] (createChunksLines mt ov lines) ∧
    (∀ c ∈ createChunksLines mt ov lines, linesTokens c.overlap.tail < ov) ∧
    (createChunksLines mt ov lines).map Chunk.number =
      List.range' 1 (createChunksLines mt ov lines).length := by
  have h := master_loop mt ov hov lines 0
    { chunks := [], currentChunk := [], currentTokens := 0, chunkNumber := 1 }
    [] (master_init mt ov)
  rw [List.nil_append] at h
  set st := chunkLoop mt ov lines 0
    { chunks := [], currentChunk := [], currentTokens := 0, chunkNumber := 1 } with hst
  obtain ⟨⟨rest, hcur, hrec⟩, hJ, hB, hD, hnum, hcn⟩ := h
  show _ ∧ _ ∧ _ ∧ _
  rw [createChunksLines, ← hst]
  by_cases hne : st.currentChunk ≠ []
  · rw [finalize, if_pos hne]
    set finalChunk : Chunk :=
      { number := st.chunkNumber,
        lines := st.currentChunk,
        startLine := (lines.length : Int) - st.currentChunk.length + 1,
        endLine := (lines.length : Int),
        tokens := st.currentTokens,
        overlap := [] } with hfc
    have hnew : newLinesFrom [] (st.chunks ++ [finalChunk]) =
        newLinesFrom [] st.chunks ++
          [finalChunk.lines.drop (lastOverlap st.chunks).length] :=
      newLinesFrom_append finalChunk st.chunks []
    have hdrop : finalChunk.lines.drop (lastOverlap st.chunks).length = rest := by
      show st.currentChunk.drop (lastOverlap st.chunks).length = rest
      rw [hcur]
      exact List.drop_left _ _
    refine ⟨?_, ?_, ?_, ?_⟩
    · show (newLinesFrom [] (st.chunks ++ [finalChunk])).flatten = lines
      rw [hnew, hdrop, List.flatten_append]
      simpa using hrec
    · exact budgetOk_append mt finalChunk st.chunks [] hB hJ
    · intro c hcmem
      rcases List.mem_append.mp hcmem with hmem | hmem
      · exact hD c hmem
      · have : c = finalChunk := by simpa using hmem
        subst this
        show linesTokens ([] : List String).tail < ov
        simpa [linesTokens] using hov
    · show (st.chunks ++ [finalChunk]).map Chunk.number =
        List.range' 1 (st.chunks ++ [finalChunk]).length
      have hlen : (st.chunks ++ [finalChunk]).length = st.chunks.length + 1 := by simp
      rw [List.map_append, hnum, hlen, List.range'_concat]
      have h19 : finalChunk.number = 1 + 1 * st.chunks.length := by
        show st.chunkNumber = 1 + 1 * st.chunks.length
        omega
      simp [h19]
      omega
  · rw [finalize, if_neg hne]
    have hcn2 : st.currentChunk = [] := Classical.not_not.mp hne
    have hrest : rest = [] := by
      rcases List.append_eq_nil.mp (hcn2 ▸ hcur.symm) with ⟨_, h2⟩
      exact h2
    refine ⟨?_, hB, hD, hnum⟩
    rw [hrest] at hrec
    simpa using hrec

lemma chunkLoop_currentChunk_ne_nil (mt ov : Nat) :
    ∀ (rem : List String) (i : Nat) (st : ChunkState), rem ≠ [] →
      (chunkLoop mt ov rem i st).currentChunk ≠ [] := by
  intro rem
  induction rem with
  | nil => intro i st h; exact absurd rfl h
  | cons l ls ih =>
    intro i st _
    rw [chunkLoop]
    cases ls with
    | nil =>
      rw [chunkLoop, stepLine]
      split <;> simp [pushLine]
    | cons y ys =>
      exact ih (i + 1) (stepLine mt ov i l st) (by simp)

lemma splitLinesAux_ne_nil : ∀ (cs : List Char) (acc : List Char),
    splitLinesAux acc cs ≠ [] := by
  intro cs
  induction cs with
  | nil => intro acc; simp [splitLinesAux]
  | cons c rest ih =>
    intro acc
    rw [splitLinesAux]
    split
    · simp
    · exact ih (c :: acc)

lemma splitLines_ne_nil (s : String) : splitLines s ≠ [] :=
  splitLinesAux_ne_nil s.data []

lemma createChunks_length_pos (mt ov : Nat) (content : String) :
    1 ≤ (createChunks mt ov content).length := by
  rw [createChunks, createChunksLines]
  have h := chunkLoop_currentChunk_ne_nil mt ov (splitLines content) 0
    { chunks := [], currentChunk := [], currentTokens := 0, chunkNumber := 1 }
    (splitLines_ne_nil content)
  rw [finalize, if_pos h]
  simp

end FileChunker

namespace CodeReviewer

lemma tagFindings_map {α : Type} (g : Finding → α)
    (hg : ∀ (f : Finding) (k : Nat), g { f with chunk := some k } = g f) :
    ∀ (n : Nat) (rs : List Review),
      (tagFindings n rs).map g = (rs.map (fun r => r.findings.map g)).flatten := by
  intro n rs
  induction rs generalizing n with
  | nil => rfl
  | cons r rest ih =>
    rw [tagFindings, List.map_append, List.map_map, List.map_cons, List.flatten_cons,
      ih (n + 1)]
    congr 1
    exact List.map_congr_left (fun f _ => hg f (n + 1))

lemma countFindings_append (fs gs : List Finding) (line : Nat) (msg : String) :
    countFindings (fs ++ gs) line msg =
      countFindings fs line msg + countFindings gs line msg := by
  simp [countFindings, List.filter_append]

lemma countFindings_retag (fs : List Finding) (k line : Nat) (msg : String) :
    countFindings (fs.map (fun f => { f with chunk := some k })) line msg =
      countFindings fs line msg := by
  rw [countFindings, List.filter_map, List.length_map]
  rfl

lemma countFindings_tagFindings (line : Nat) (msg : String) :
    ∀ (n : Nat) (rs : List Review),
      countFindings (tagFindings n rs) line msg =
        (rs.map (fun r => countFindings r.findings line msg)).sum := by
  intro n rs
  induction rs generalizing n with
  | nil => rfl
  | cons r rest ih =>
    rw [tagFindings, countFindings_append, countFindings_retag, List.map_cons,
      List.sum_cons, ih (n + 1)]

lemma foldl_addMetrics_proj (proj : Metrics → Nat)
    (hproj : ∀ a b, proj (addMetrics a b) = proj a + proj b) :
    ∀ (rs : List Review) (acc : Metrics),
      proj (rs.foldl (fun acc r => addMetrics acc r.metrics) acc) =
        proj acc + (rs.map (fun r => proj r.metrics)).sum := by
  intro rs
  induction rs with
  | nil => intro acc; simp
  | cons r rest ih =>
    intro acc
    rw [List.foldl_cons, ih (addMetrics acc r.metrics), hproj, List.map_cons,
      List.sum_cons]
    omega

end CodeReviewer

/-- C10 (confirmed): the chunker's token estimator and the reviewer's
token estimator compute the same function, namely the rounded-up quarter
of the string length — `Math.ceil(length / 4)`, i.e. the unique `e` with
`length ≤ 4 * e < length + 4`. -/
theorem estimateTokens_agreement (s : String) :
    FileChunker.estimateTokens s = CodeReviewer.estimateTokens s ∧
    FileChunker.estimateTokens s = (s.length + 3) / 4 ∧
    s.length ≤ 4 * FileChunker.estimateTokens s ∧
    4 * FileChunker.estimateTokens s < s.length + 4 := by
  refine ⟨rfl, rfl, ?_, ?_⟩ <;>
    · rw [FileChunker.estimateTokens]
      omega

/-- C8 (corrected, counterexample): with the default configuration, the
empty input text yields one chunk, not zero. -/
theorem createChunks_empty_counterexample :
    (FileChunker.createChunks 4000 200 "").length = 1 ∧ (1 : Nat) ≠ 0 := by
  refine ⟨by decide, by decide⟩

/-- C8 (amended): for every configuration, `createChunks` on the empty
input text produces exactly one chunk, holding the single empty line that
JS `''.split('\n')` yields, spanning lines 1–1 with 0 tokens and empty
overlap. -/
theorem createChunks_empty_singleton (mt ov : Nat) :
    FileChunker.createChunks mt ov "" =
      [{ number := 1, lines := [""], startLine := 1, endLine := 1,
         tokens := 0, overlap := [] }] := by
  have h : splitLines "" = [""] := rfl
  rw [FileChunker.createChunks, h, FileChunker.createChunksLines, FileChunker.chunkLoop,
    FileChunker.chunkLoop, FileChunker.stepLine, if_neg (by simp)]
  simp [FileChunker.pushLine, FileChunker.finalize, FileChunker.estimateTokens]

/-- C6 (corrected, counterexample): with `overlap = 200 ≥ maxTokens = 100`
— the configuration the claim says must be rejected before any chunking —
`createChunks` still runs and produces a chunk. -/
theorem chunker_accepts_overlap_ge_max :
    (FileChunker.createChunks 100 200 "hello").length = 1 ∧ ¬ ((1 : Nat) = 0) := by
  refine ⟨by decide, by decide⟩

/-- C6 (amended): the chunker performs no configuration validation: for
any `overlap ≥ maxTokens` (nonzero, so that the JS `||` defaulting does
not replace it), the constructor stores the budgets unchanged — neither
rejecting nor clamping them — and `createChunks` still terminates and
produces at least one chunk for every input text, emitting no error
signal. -/
theorem chunker_no_config_rejection (mt ov : Nat) (content : String)
    (h1 : 0 < mt) (h2 : mt ≤ ov) :
    FileChunker.makeConfig (some mt) (some ov) =
      { maxTokens := mt, overlap := ov } ∧
    1 ≤ (FileChunker.createChunks mt ov content).length := by
  constructor
  · have hmt : ¬ mt = 0 := by omega
    have hov : ¬ ov = 0 := by omega
    simp [FileChunker.makeConfig, hmt, hov]
  · exact FileChunker.createChunks_length_pos mt ov content

/-- Witness for C6's amended theorem at the concrete invalid
configuration `maxTokens = 100`, `overlap = 200`. -/
theorem chunker_no_config_rejection_witness :
    FileChunker.makeConfig (some 100) (some 200) =
      { maxTokens := 100, overlap := 200 } ∧
    1 ≤ (FileChunker.createChunks 100 200 "hello").length :=
  chunker_no_config_rejection 100 200 "hello" (by decide) (by decide)

/-- C3 (corrected, counterexample): with `maxTokens = 2`, `overlap = 1`
(a valid configuration) on a two-line file, chunk 2's inherited overlap
slice (chunk 1's `overlap` field, the line `"aaaaaaaa"`) has estimated
token count 2, exceeding the overlap budget 1. -/
theorem createChunks_overlap_counterexample :
    (FileChunker.createChunks 2 1 "aaaaaaaa\nbbbbbbbb").map
        (fun c => FileChunker.linesTokens c.overlap) = [2, 0] ∧
      ¬ ((2 : Nat) ≤ 1) := by
  refine ⟨by decide, by decide⟩

/-- C3 (amended): for every valid configuration and every chunk produced
by `createChunks`, the estimated token count of the chunk's overlap slice
*excluding its first line* is strictly below the overlap budget — the
slice may exceed the budget by at most its first line's own estimate,
because `getOverlapLines` keeps taking whole lines while the running
total is still below the budget. -/
theorem createChunks_overlap_tail_bound (mt ov : Nat) (content : String)
    (h1 : 0 < ov) (h2 : ov < mt) :
    ∀ c ∈ FileChunker.createChunks mt ov content,
      FileChunker.linesTokens c.overlap.tail < ov :=
  (FileChunker.createChunksLines_spec mt ov h1 (splitLines content)).2.2.1

/-- Witness for C3's amended theorem at `maxTokens = 2`, `overlap = 1` on
the two-line counterexample file. -/
theorem createChunks_overlap_tail_bound_witness :
    0 < 1 ∧ 1 < 2 ∧
      ∀ c ∈ FileChunker.createChunks 2 1 "aaaaaaaa\nbbbbbbbb",
        FileChunker.linesTokens c.overlap.tail < 1 :=
  ⟨by decide, by decide,
    createChunks_overlap_tail_bound 2 1 "aaaaaaaa\nbbbbbbbb" (by decide) (by decide)⟩

/-- C4 (confirmed): for every input text and valid configuration,
concatenating the chunks' new (non-overlap) lines — each chunk's line
array minus the overlap prefix inherited from its predecessor — in list
order reconstructs the original line list exactly, and the chunks'
sequence numbers are `1, 2, …` in that same order. -/
theorem createChunks_coverage (mt ov : Nat) (content : String)
    (h1 : 0 < ov) (h2 : ov < mt) :
    (FileChunker.newLinesFrom [] (FileChunker.createChunks mt ov content)).flatten =
        splitLines content ∧
      (FileChunker.createChunks mt ov content).map FileChunker.Chunk.number =
        List.range' 1 (FileChunker.createChunks mt ov content).length := by
  have h := FileChunker.createChunksLines_spec mt ov h1 (splitLines content)
  exact ⟨h.1, h.2.2.2⟩

/-- Witness for C4 at `maxTokens = 4`, `overlap = 1` on the three-line
example file (two chunks, line 2 duplicated as overlap). -/
theorem createChunks_coverage_witness :
    0 < 1 ∧ 1 < 4 ∧
      ((FileChunker.newLinesFrom [] (FileChunker.createChunks 4 1 exampleContent)).flatten =
          splitLines exampleContent ∧
        (FileChunker.createChunks 4 1 exampleContent).map FileChunker.Chunk.number =
          List.range' 1 (FileChunker.createChunks 4 1 exampleContent).length) :=
  ⟨by decide, by decide,
    createChunks_coverage 4 1 exampleContent (by decide) (by decide)⟩

/-- C5 (corrected, counterexample): with the valid configuration
`maxTokens = 10`, `overlap = 9` on a seven-line file (2 estimated tokens
per line), chunk 2 carries 6 lines and a recorded token count of 13 > 10:
a chunk exceeding the budget without being a single over-long line.  (The
overlap re-seed plus the first new line already exceeded the budget, and
the loop never re-checks the budget when appending that first line.) -/
theorem createChunks_budget_counterexample :
    (FileChunker.createChunks 10 9
        "aaaaaaaa\nbbbbbbbb\ncccccccc\ndddddddd\neeeeeeee\nffffffff\ngggggggg").map
        (fun c => c.tokens) = [10, 13, 13] ∧
      (FileChunker.createChunks 10 9
        "aaaaaaaa\nbbbbbbbb\ncccccccc\ndddddddd\neeeeeeee\nffffffff\ngggggggg").map
        (fun c => c.lines.length) = [5, 6, 6] ∧
      ¬ ((13 : Nat) ≤ 10) ∧ ¬ ((6 : Nat) = 1) := by
  refine ⟨by decide, by decide, by decide, by decide⟩

/-- C5 (amended): for every input text and valid configuration, every
chunk either has recorded token count `≤ maxTokens`, or consists of its
inherited overlap seed plus exactly one new line (for the first chunk,
whose seed is empty, this is the single over-long-line case). -/
theorem createChunks_budget (mt ov : Nat) (content : String)
    (h1 : 0 < ov) (h2 : ov < mt) :
    FileChunker.BudgetOk mt [] (FileChunker.createChunks mt ov content) :=
  (FileChunker.createChunksLines_spec mt ov h1 (splitLines content)).2.1

set_option maxHeartbeats 1000000 in
/-- Witness for C5's amended theorem at `maxTokens = 10`, `overlap = 9`
on the seven-line counterexample file. -/
theorem createChunks_budget_witness :
    0 < 9 ∧ 9 < 10 ∧
      FileChunker.BudgetOk 10 []
        (FileChunker.createChunks 10 9
          "aaaaaaaa\nbbbbbbbb\ncccccccc\ndddddddd\neeeeeeee\nffffffff\ngggggggg") :=
  ⟨by decide, by decide,
    createChunks_budget 10 9
      "aaaaaaaa\nbbbbbbbb\ncccccccc\ndddddddd\neeeeeeee\nffffffff\ngggggggg"
      (by decide) (by decide)⟩

/-- C1 (corrected, counterexample): two chunk reviews each reporting the
identical finding (line 5, message "Remove console statements") — the
situation the claim attributes to an overlapped line — yield an
aggregated result containing that (line, message) key twice, not once. -/
theorem combineReviews_dup_counterexample :
    CodeReviewer.countFindings
        (CodeReviewer.combineReviews [dupReview, dupReview]).findings
        5 "Remove console statements" = 2 ∧
      ¬ ((2 : Nat) = 1) := by
  refine ⟨by decide, by decide⟩

/-- C1 (amended): `combineReviews` performs no deduplication: for every
list of per-chunk reviews, the number of aggregated findings carrying a
given (line, message) key equals the sum over the chunks of the number of
findings with that key — a finding reported by k chunks appears k times,
in particular twice when two overlapping chunks both report it. -/
theorem combineReviews_count_key (reviews : List CodeReviewer.Review)
    (line : Nat) (msg : String) :
    CodeReviewer.countFindings (CodeReviewer.combineReviews reviews).findings line msg =
      (reviews.map (fun r => CodeReviewer.countFindings r.findings line msg)).sum :=
  CodeReviewer.countFindings_tagFindings line msg 0 reviews

/-- C2 (corrected, counterexample): chunking the three-line example file
with `maxTokens = 4`, `overlap = 1` gives chunk 2 = lines 2–3 with
`startLine = 2`; the rule firing on `"cccccccc"` (original line 3 =
startLine 2 + chunk-local line 2 − 1) produces the single aggregated
finding, and it reports line 2 — the chunk-local index, not the
original-file coordinate 3. -/
theorem combineReviews_no_translation_counterexample :
    (CodeReviewer.combineReviews exampleReviews).findings.map
        CodeReviewer.Finding.line = [2] ∧
      exampleChunks.map FileChunker.Chunk.startLine = [1, 2] ∧
      (2 : Int) + 2 - 1 = 3 ∧
      ¬ ((2 : Nat) = 3) := by
  refine ⟨by decide, by decide, by decide, by decide⟩

/-- C2 (amended): `combineReviews` performs no coordinate translation
(chunk start-line offsets are not even passed to it): every finding in
the aggregated result keeps exactly the chunk-local line number the
analyzer assigned, in concatenation order. -/
theorem combineReviews_preserves_lines (reviews : List CodeReviewer.Review) :
    (CodeReviewer.combineReviews reviews).findings.map CodeReviewer.Finding.line =
      (reviews.map (fun r => r.findings.map CodeReviewer.Finding.line)).flatten :=
  CodeReviewer.tagFindings_map CodeReviewer.Finding.line (fun _ _ => rfl) 0 reviews

/-- C7 (corrected, counterexample): a single chunk review whose analyzer
output is a `low` finding on line 1 (`"console.log(x)"`) followed by a
`critical` finding on line 2 is aggregated unchanged: the severity ranks
of adjacent findings are `[1, 4]`, so the earlier finding's rank is *not*
`≥` the later one's — the aggregated list is not severity-sorted. -/
theorem combineReviews_unsorted_counterexample :
    ((CodeReviewer.combineReviews [unsortedReview]).findings.map
        (fun f => CodeReviewer.Severity.rank f.severity)) = [1, 4] ∧
      ¬ ((1 : Nat) ≥ 4) := by
  refine ⟨by decide, by decide⟩

/-- C7 (amended): `combineReviews` performs no sorting: the aggregated
finding list is exactly the concatenation of the per-chunk finding lists
in chunk order (each finding unchanged in line, severity, message and
code), each chunk's findings in the order the analyzer produced them. -/
theorem combineReviews_concat_order (reviews : List CodeReviewer.Review) :
    (CodeReviewer.combineReviews reviews).findings.map
        (fun f => (f.line, f.severity, f.message, f.code)) =
      (reviews.map (fun r => r.findings.map
        (fun f => (f.line, f.severity, f.message, f.code)))).flatten :=
  CodeReviewer.tagFindings_map
    (fun f => (f.line, f.severity, f.message, f.code)) (fun _ _ => rfl) 0 reviews

/-- C9 (corrected, counterexample): on the three-line example file split
into two chunks (line 2 duplicated as overlap), the aggregated metrics
are the sums of the per-chunk metrics — 4 total lines, 10 estimated
tokens — but the original file has 3 lines and 7 estimated tokens: the
overlap line *is* counted twice, so the sums do not equal the original
file's metrics. -/
theorem combineReviews_metrics_overcount_counterexample :
    (CodeReviewer.combineReviews exampleReviews).metrics.totalLines = 4 ∧
      (CodeReviewer.calculateMetrics (fun _ => 1) exampleContent).totalLines = 3 ∧
      (CodeReviewer.combineReviews exampleReviews).metrics.tokens = 10 ∧
      (CodeReviewer.calculateMetrics (fun _ => 1) exampleContent).tokens = 7 ∧
      ¬ ((4 : Nat) = 3) := by
  refine ⟨by decide, by decide, by decide, by decide, by decide⟩

/-- C9 (amended): the file-level metrics produced by `combineReviews`
equal the field-wise sums of the per-chunk metrics (this part of the
claim holds); for a chunked file these sums count every overlap line once
per chunk containing it, so they need not equal the original file's
metrics. -/
theorem combineReviews_metrics_sum (reviews : List CodeReviewer.Review) :
    (CodeReviewer.combineReviews reviews).metrics.totalLines =
        (reviews.map (fun r => r.metrics.totalLines)).sum ∧
      (CodeReviewer.combineReviews reviews).metrics.codeLines =
        (reviews.map (fun r => r.metrics.codeLines)).sum ∧
      (CodeReviewer.combineReviews reviews).metrics.commentLines =
        (reviews.map (fun r => r.metrics.commentLines)).sum ∧
      (CodeReviewer.combineReviews reviews).metrics.complexity =
        (reviews.map (fun r => r.metrics.complexity)).sum ∧
      (CodeReviewer.combineReviews reviews).metrics.tokens =
        (reviews.map (fun r => r.metrics.tokens)).sum := by
  refine ⟨?_, ?_, ?_, ?_, ?_⟩
  · simpa using CodeReviewer.foldl_addMetrics_proj CodeReviewer.Metrics.totalLines
      (fun _ _ => rfl) reviews
      { totalLines := 0, codeLines := 0, commentLines := 0, complexity := 0, tokens := 0 }
  · simpa using CodeReviewer.foldl_addMetrics_proj CodeReviewer.Metrics.codeLines
      (fun _ _ => rfl) reviews
      { totalLines := 0, codeLines := 0, commentLines := 0, complexity := 0, tokens := 0 }
  · simpa using CodeReviewer.foldl_addMetrics_proj CodeReviewer.Metrics.commentLines
      (fun _ _ => rfl) reviews
      { totalLines := 0, codeLines := 0, commentLines := 0, complexity := 0, tokens := 0 }
  · simpa using CodeReviewer.foldl_addMetrics_proj CodeReviewer.Metrics.complexity
      (fun _ _ => rfl) reviews
      { totalLines := 0, codeLines := 0, commentLines := 0, complexity := 0, tokens := 0 }
  · simpa using CodeReviewer.foldl_addMetrics_proj CodeReviewer.Metrics.tokens
      (fun _ _ => rfl) reviews
      { totalLines := 0, codeLines := 0, commentLines := 0, complexity := 0, tokens := 0 }
